import Mathlib

/-!
# Verification of the foodix inventory-forecasting service

Shallow embedding of the optimization / forecasting logic of the repository:

* `ml/archive/ml_endpoints.py` — ensemble forecast rollout
  (`EnsembleInference.predict_with_ensemble`), the prediction endpoint
  (`predict_inventory`), the optimization endpoint
  (`get_optimization_analytics`: runout walk, waste risk, coverage days) and
  the action table (`_generate_action_suggestion`);
* `ml/ml_simple.py` — the single-model endpoint `predict_inventory_simple`
  (feature defaults, per-day predictor fallback, error wrapping);
* `ml/src/data_processing/database_loader.py` — feature defaults.

Python floats are modelled as `ℚ` (the code only adds, multiplies, divides and
compares them); dates are modelled by their offset in days from "today", so the
forecast value for index `i` of the rollout carries the date offset `i + 1`
(the code stamps it `base_date + timedelta(days=i+1)`), and a parsed
`runout_date` minus today gives back exactly that offset.
-/

namespace Foodix

/-- Cumulative consumption over the first `k` forecast days:
`(preds.take k).sum` is the sum the optimization endpoint has accumulated
after processing `k` entries of the forecast list. -/
def cumSum (preds : List ℚ) (k : ℕ) : ℚ :=
  (preds.take k).sum

/-- The runout loop of `get_optimization_analytics`
(`ml/archive/ml_endpoints.py`, lines 278–285): starting from
`cumulative_consumption = cum` at index `i`, add each daily prediction and
return the day offset `i + 1` (the date is `today + (i+1)`) as soon as the
cumulative sum reaches or exceeds the current stock. -/
def runoutWalk (stock : ℚ) : List ℚ → ℚ → ℕ → Option ℕ
  | [], _, _ => none
  | p :: rest, cum, i =>
    if stock ≤ cum + p then some (i + 1) else runoutWalk stock rest (cum + p) (i + 1)

/-- `runout_date` of the optimization endpoint, as a day offset from today
(`none` when the loop finishes without the cumulative sum reaching stock).
`days_until_runout` in the code is recovered by parsing `runout_date` and
subtracting today's date, which returns exactly this offset. -/
def runoutDay (stock : ℚ) (preds : List ℚ) : Option ℕ :=
  runoutWalk stock preds 0 0

/-- Waste-risk computation of `get_optimization_analytics`
(`ml/archive/ml_endpoints.py`, lines 289–297).  `days_to_perish` is
`(perish_date - today).days`, present exactly when a perish date was given;
for `0 < d` the code sums `predictions[:days_to_perish]` and flags waste risk
when that partial sum is strictly below the current stock. -/
def wasteRisk (current_stock : ℚ) (preds : List ℚ) (days_to_perish : Option ℤ) : Bool :=
  match days_to_perish with
  | none => false
  | some d => if 0 < d then decide ((preds.take d.toNat).sum < current_stock) else false

/-- The waste-risk predicate exactly as the spec words it: sum the forecast
consumption over the days *strictly before* the perish date.  Forecast index
`i` is dated `today + (i+1)`, so the entries strictly before the perish date
(offset `d`) are the first `d - 1` entries. -/
def wasteRiskSpec (current_stock : ℚ) (preds : List ℚ) (days_to_perish : Option ℤ) : Bool :=
  match days_to_perish with
  | none => false
  | some d => if 0 < d then decide ((preds.take (d - 1).toNat).sum < current_stock) else false

/-- `_generate_action_suggestion` (`ml/archive/ml_endpoints.py`, lines
336–356).  `current_stock` and `avg_daily_consumption` are parameters of the
Python function but are never read. -/
def generateActionSuggestion (days_until_runout : Option ℤ) (waste_risk : Bool)
    (current_stock avg_daily_consumption : ℚ) (safety_buffer : ℤ) : String :=
  if waste_risk then
    "Run a special - high waste risk detected before expiry"
  else
    match days_until_runout with
    | none => "Stock appears sufficient - monitor regularly"
    | some d =>
      if d ≤ safety_buffer then "Reorder now - critical stock level"
      else if d ≤ safety_buffer + 3 then "Reorder soon - approaching reorder point"
      else if 30 ≤ d then "Increase safety buffer - excess inventory detected"
      else "Monitor closely - stock levels normal"

/-- Forecast-sequence generation of `EnsembleInference.predict_with_ensemble`
(`ml/archive/ml_endpoints.py`, lines 144–153): starting from the meta-model
point estimate `final_pred`, append for each `i < forecast_days` the value
`max(0, final_pred * decay_factor)` with `decay_factor = 1.0 - i * 0.02`. -/
def predictWithEnsemble (final_pred : ℚ) (forecast_days : ℕ) : List ℚ :=
  (List.range forecast_days).foldl
    (fun forecast (i : ℕ) => forecast ++ [max 0 (final_pred * ((1 : ℚ) - (i : ℚ) * (2 / 100)))]) []

/-- The decay the spec describes instead: a geometric 2%-per-day decay,
`final_pred * 0.98 ^ i`, clamped at zero. -/
def predictWithEnsembleGeom (final_pred : ℚ) (forecast_days : ℕ) : List ℚ :=
  (List.range forecast_days).map (fun (i : ℕ) => max 0 (final_pred * ((98 : ℚ) / 100) ^ i))

/-- Elementwise clamp `np.maximum(predictions, 0)` applied by
`predict_inventory` after the inverse `expm1` transform
(`ml/archive/ml_endpoints.py`, line 201). -/
def clampNonneg (xs : List ℚ) : List ℚ :=
  xs.map (fun x => max x 0)

/-- The response points built by `predict_inventory`
(`ml/archive/ml_endpoints.py`, lines 207–215): one point per forecast value
with `predicted = p`, `confidence_low = p * 0.85`, `confidence_high = p * 1.15`. -/
def mkPredictionPoints (preds : List ℚ) : List (ℚ × ℚ × ℚ) :=
  preds.map (fun p => (p, p * (85 / 100), p * (115 / 100)))

/-- `np.mean` of the forecast list. -/
def mean (xs : List ℚ) : ℚ :=
  xs.sum / (xs.length : ℚ)

/-- Python `int()` applied to a rational value: truncation towards zero. -/
def ratTrunc (q : ℚ) : ℤ :=
  if 0 ≤ q then ⌊q⌋ else ⌈q⌉

/-- Division that records when the divisor is zero (numpy float division by
zero would not produce a usable integer coverage figure). -/
def safeDiv (a b : ℚ) : Option ℚ :=
  if b = 0 then none else some (a / b)

/-- `stock_coverage_days` of the optimization details
(`ml/archive/ml_endpoints.py`, line 319, and
`ml/archive/ml_endpoints_simple.py`, line 254):
`int(current_stock / np.mean(predictions)) if np.mean(predictions) > 0 else 999`. -/
def stockCoverageDays (current_stock : ℚ) (preds : List ℚ) : Option ℤ :=
  if 0 < mean preds then (safeDiv current_stock (mean preds)).map ratTrunc
  else some 999

/-! ### The single-model endpoint `predict_inventory_simple` (`ml/ml_simple.py`) -/

/-- An HTTP error as raised via `HTTPException(status_code, detail)`. -/
structure HTTPError where
  status : ℕ
  detail : String
deriving DecidableEq

/-- Python `str()` of a starlette `HTTPException`: `f"{status_code}: {detail}"`. -/
def strHTTPError (e : HTTPError) : String :=
  toString e.status ++ ": " ++ e.detail

/-- `np.mean(data['qty_used'].fillna(0).tail(7))`: mean of the last (up to)
seven historical usage values (`ml/ml_simple.py`, line 142). -/
def trailing7Avg (qty_used : List ℚ) : ℚ :=
  let t := qty_used.drop (qty_used.length - 7)
  t.sum / (t.length : ℚ)

/-- The `try:` body of `predict_inventory_simple` (`ml/ml_simple.py`, lines
79–175), abstracted over the fitted model: `qty_used` is the (date-sorted)
history for the SKU and `predictor i` is the outcome of
`xgboost_model.predict(latest_features)` on day `i` — `Except.error` when the
call raises.  Empty history raises 404; otherwise each of the
`lookahead_days` future values is `max(0, prediction)` on success and the
trailing-7-day average of `qty_used` when the per-day call raises. -/
def predictBodySimple (sku_id : String) (qty_used : List ℚ)
    (predictor : ℕ → Except String ℚ) (lookahead_days : ℕ) :
    Except HTTPError (List ℚ) :=
  if qty_used.isEmpty then
    Except.error ⟨404, "No data found for SKU: " ++ sku_id⟩
  else if 0 < qty_used.length then
    Except.ok ((List.range lookahead_days).map (fun i =>
      match predictor i with
      | Except.ok v => max 0 v
      | Except.error _ => trailing7Avg qty_used))
  else
    Except.error ⟨422, "Could not prepare features"⟩

/-- `predict_inventory_simple` (`ml/ml_simple.py`, lines 72–179).  The
model-availability check (line 76) precedes the `try:` block, so its 503
propagates untouched; every exception raised inside the body — including the
`HTTPException`s the body itself raises — is caught by the trailing
`except Exception` (line 177) and re-raised as
`HTTPException(500, f"Prediction failed: {str(e)}")`. -/
def predictInventorySimple (model_available : Bool) (sku_id : String)
    (qty_used : List ℚ) (predictor : ℕ → Except String ℚ) (lookahead_days : ℕ) :
    Except HTTPError (List ℚ) :=
  if !model_available then
    Except.error ⟨503, "Model not available"⟩
  else
    match predictBodySimple sku_id qty_used predictor lookahead_days with
    | Except.ok r => Except.ok r
    | Except.error e => Except.error ⟨500, "Prediction failed: " ++ strHTTPError e⟩

/-! ### Feature defaults (`ml/ml_simple.py`, lines 99–109, and
`database_loader._add_derived_features`, lines 221–243) -/

/-- A usage record as fetched from the database; the listed columns are the
ones the Feature Builder fills with defaults when null. -/
structure UsageRecord where
  covers : Option ℚ
  seasonality_factor : Option ℚ
  inventory_start : Option ℚ
  on_order_qty : Option ℚ
  avg_daily_usage_7d : Option ℚ
  avg_daily_usage_28d : Option ℚ
  shelf_life_days : Option ℚ
  unit_cost : Option ℚ
  is_holiday : Option ℚ
  lead_time_days : Option ℚ
deriving DecidableEq

/-- A fully-populated feature row. -/
structure FeatureRow where
  covers : ℚ
  seasonality_factor : ℚ
  inventory_start : ℚ
  on_order_qty : ℚ
  avg_daily_usage_7d : ℚ
  avg_daily_usage_28d : ℚ
  shelf_life_days : ℚ
  unit_cost : ℚ
  is_holiday : ℚ
  lead_time_days : ℚ
deriving DecidableEq

/-- The `fillna` defaults of the Feature Builder (`ml/ml_simple.py`, lines
100–109; the same constants appear in `numeric_defaults` of
`database_loader._add_derived_features`). -/
def buildFeatureRow (r : UsageRecord) : FeatureRow where
  covers := r.covers.getD 250
  seasonality_factor := r.seasonality_factor.getD 1
  inventory_start := r.inventory_start.getD 0
  on_order_qty := r.on_order_qty.getD 0
  avg_daily_usage_7d := r.avg_daily_usage_7d.getD 0
  avg_daily_usage_28d := r.avg_daily_usage_28d.getD 0
  shelf_life_days := r.shelf_life_days.getD 30
  unit_cost := r.unit_cost.getD 1
  is_holiday := r.is_holiday.getD 0
  lead_time_days := r.lead_time_days.getD 2

/-- A `UsageRecord` with every optional field null. -/
def nullUsageRecord : UsageRecord :=
  ⟨none, none, none, none, none, none, none, none, none, none⟩

/-! ### Basic lemmas about the runout walk -/

lemma runoutWalk_nil (stock cum : ℚ) (i : ℕ) : runoutWalk stock [] cum i = none := rfl

lemma runoutWalk_cons (stock p : ℚ) (rest : List ℚ) (cum : ℚ) (i : ℕ) :
    runoutWalk stock (p :: rest) cum i =
      if stock ≤ cum + p then some (i + 1) else runoutWalk stock rest (cum + p) (i + 1) := rfl

/-- Running the walk with accumulator `cum` at index `i` is running it fresh
against the residual stock `stock - cum` and shifting the answer by `i`. -/
lemma runoutWalk_shift (preds : List ℚ) :
    ∀ (stock cum : ℚ) (i : ℕ),
      runoutWalk stock preds cum i = (runoutWalk (stock - cum) preds 0 0).map (· + i) := by
  induction preds with
  | nil => intro stock cum i; rfl
  | cons p rest ih =>
    intro stock cum i
    rw [runoutWalk_cons, runoutWalk_cons]
    by_cases h : stock ≤ cum + p
    · rw [if_pos h, if_pos (by linarith : stock - cum ≤ 0 + p)]
      simp [Nat.add_comm]
    · rw [if_neg h, if_neg (fun hc => h (by linarith : stock ≤ cum + p)),
        ih stock (cum + p) (i + 1), ih (stock - cum) (0 + p) (0 + 1), Option.map_map]
      have e : stock - cum - (0 + p) = stock - (cum + p) := by ring
      rw [e]
      congr 1
      funext a
      simp only [Function.comp_apply]
      omega

/-- Structural recursion for `runoutDay`. -/
lemma runoutDay_cons (stock p : ℚ) (rest : List ℚ) :
    runoutDay stock (p :: rest) =
      if stock ≤ p then some 1 else (runoutDay (stock - p) rest).map (· + 1) := by
  rw [runoutDay, runoutWalk_cons, runoutDay]
  by_cases h : stock ≤ p
  · rw [if_pos (by simpa using h : stock ≤ 0 + p), if_pos h]
  · rw [if_neg (by simpa using h : ¬stock ≤ 0 + p), if_neg h,
      runoutWalk_shift rest stock (0 + p) (0 + 1)]
    norm_num

lemma cumSum_zero (preds : List ℚ) : cumSum preds 0 = 0 := rfl

lemma cumSum_cons_succ (p : ℚ) (rest : List ℚ) (j : ℕ) :
    cumSum (p :: rest) (j + 1) = p + cumSum rest j := by
  simp [cumSum, List.take_succ_cons]

lemma cumSum_cons_one (p : ℚ) (rest : List ℚ) : cumSum (p :: rest) 1 = p := by
  rw [cumSum_cons_succ, cumSum_zero, add_zero]

/-- The walk returns `some k` exactly when day `k` is the first day (at least
one, within the horizon) whose cumulative predicted consumption reaches the
current stock. -/
theorem runoutDay_eq_some_iff (stock : ℚ) (preds : List ℚ) (k : ℕ) :
    runoutDay stock preds = some k ↔
      1 ≤ k ∧ k ≤ preds.length ∧ stock ≤ cumSum preds k ∧
        ∀ j, 1 ≤ j → j < k → cumSum preds j < stock := by
  induction preds generalizing stock k with
  | nil =>
    simp only [runoutDay, runoutWalk_nil, List.length_nil]
    constructor
    · intro h; exact Option.noConfusion h
    · rintro ⟨h1, h2, -, -⟩; omega
  | cons p rest ih =>
    rw [runoutDay_cons]
    by_cases h : stock ≤ p
    · rw [if_pos h]
      constructor
      · intro hk
        have hk1 : k = 1 := (Option.some_inj.mp hk).symm
        subst hk1
        refine ⟨le_refl 1, by simp, ?_, ?_⟩
        · rw [cumSum_cons_one]; exact h
        · intro j hj1 hj2; omega
      · rintro ⟨h1, h2, h3, h4⟩
        have hk1 : k = 1 := by
          by_contra hne
          have := h4 1 le_rfl (by omega)
          rw [cumSum_cons_one] at this
          linarith
        rw [hk1]
    · rw [if_neg h, Option.map_eq_some']
      constructor
      · rintro ⟨a, ha, rfl⟩
        obtain ⟨h1, h2, h3, h4⟩ := (ih (stock - p) a).mp ha
        refine ⟨by omega, by simp only [List.length_cons]; omega, ?_, ?_⟩
        · rw [cumSum_cons_succ]; linarith
        · intro j hj1 hjk
          obtain ⟨j', rfl⟩ : ∃ j', j = j' + 1 := ⟨j - 1, by omega⟩
          rw [cumSum_cons_succ]
          rcases Nat.eq_zero_or_pos j' with rfl | hj'
          · rw [cumSum_zero]; linarith
          · have := h4 j' hj' (by omega)
            linarith
      · rintro ⟨h1, h2, h3, h4⟩
        obtain ⟨k', rfl⟩ : ∃ k', k = k' + 1 := ⟨k - 1, by omega⟩
        have hk' : 1 ≤ k' := by
          by_contra h0
          have hk0 : k' = 0 := by omega
          subst hk0
          rw [cumSum_cons_one] at h3
          exact h h3
        refine ⟨k', (ih (stock - p) k').mpr ⟨hk', ?_, ?_, ?_⟩, rfl⟩
        · simp only [List.length_cons] at h2; omega
        · rw [cumSum_cons_succ] at h3; linarith
        · intro j hj1 hjk
          have := h4 (j + 1) (by omega) (by omega)
          rw [cumSum_cons_succ] at this
          linarith

/-- The walk returns `none` exactly when no cumulative sum within the horizon
reaches the current stock. -/
theorem runoutDay_eq_none_iff (stock : ℚ) (preds : List ℚ) :
    runoutDay stock preds = none ↔
      ∀ j, 1 ≤ j → j ≤ preds.length → cumSum preds j < stock := by
  induction preds generalizing stock with
  | nil =>
    simp only [runoutDay, runoutWalk_nil, List.length_nil, true_iff]
    intro j hj1 hj2
    exact absurd hj2 (by omega)
  | cons p rest ih =>
    rw [runoutDay_cons]
    by_cases h : stock ≤ p
    · rw [if_pos h]
      constructor
      · intro habs; exact Option.noConfusion habs
      · intro hall
        have := hall 1 le_rfl (by simp)
        rw [cumSum_cons_one] at this
        linarith
    · rw [if_neg h, Option.map_eq_none', ih (stock - p)]
      constructor
      · intro hall j hj1 hjlen
        obtain ⟨j', rfl⟩ : ∃ j', j = j' + 1 := ⟨j - 1, by omega⟩
        rw [cumSum_cons_succ]
        rcases Nat.eq_zero_or_pos j' with rfl | hj'
        · rw [cumSum_zero]; linarith
        · have := hall j' hj' (by simp only [List.length_cons] at hjlen; omega)
          linarith
      · intro hall j hj1 hjlen
        have := hall (j + 1) (by omega) (by simp only [List.length_cons]; omega)
        rw [cumSum_cons_succ] at this
        linarith

/-! ### Closed form of the ensemble rollout -/

lemma foldl_append_map (f : ℕ → ℚ) :
    ∀ (l : List ℕ) (acc : List ℚ),
      l.foldl (fun a i => a ++ [f i]) acc = acc ++ l.map f := by
  intro l
  induction l with
  | nil => intro acc; simp
  | cons x xs ih => intro acc; simp [ih]

lemma predictWithEnsemble_eq_map (final_pred : ℚ) (H : ℕ) :
    predictWithEnsemble final_pred H =
      (List.range H).map (fun (i : ℕ) => max 0 (final_pred * ((1 : ℚ) - (i : ℚ) * (2 / 100)))) := by
  rw [predictWithEnsemble, foldl_append_map]
  simp

lemma predictWithEnsemble_length (final_pred : ℚ) (H : ℕ) :
    (predictWithEnsemble final_pred H).length = H := by
  rw [predictWithEnsemble_eq_map]
  simp

lemma predictWithEnsemble_getD (final_pred : ℚ) (H i : ℕ) (hi : i < H) :
    (predictWithEnsemble final_pred H).getD i 0 =
      max 0 (final_pred * ((1 : ℚ) - (i : ℚ) * (2 / 100))) := by
  rw [predictWithEnsemble_eq_map, List.getD_eq_getElem?_getD, List.getElem?_map,
    List.getElem?_range hi]
  rfl

/-! ### Claim theorems -/

/-- C1: For every current stock level and every forecast sequence walked in
ascending date order, the runout date computed by the optimization endpoint
is the first future date (day offset ≥ 1) at which the cumulative sum of
predicted daily consumption reaches or exceeds the current stock, it is
absent (with no error) exactly when no cumulative sum within the horizon
reaches the current stock, and for stock = 100 with a constant forecast of
20 per day over a 30-day horizon the runout date is the 5th forecast day. -/
theorem runout_first_crossing :
    (∀ (stock : ℚ) (preds : List ℚ) (k : ℕ),
        runoutDay stock preds = some k ↔
          1 ≤ k ∧ k ≤ preds.length ∧ stock ≤ cumSum preds k ∧
            ∀ j, 1 ≤ j → j < k → cumSum preds j < stock) ∧
    (∀ (stock : ℚ) (preds : List ℚ),
        runoutDay stock preds = none ↔
          ∀ j, 1 ≤ j → j ≤ preds.length → cumSum preds j < stock) ∧
    runoutDay 100 (List.replicate 30 20) = some 5 :=
  ⟨runoutDay_eq_some_iff, runoutDay_eq_none_iff,
    by norm_num [runoutDay, runoutWalk, List.replicate]⟩

/-- Witness for C1: the concrete scenario, read off from the theorem. -/
theorem runout_first_crossing_witness :
    runoutDay 100 (List.replicate 30 20) = some 5 :=
  runout_first_crossing.2.2

/-- C2: The recommended action depends only on
(waste_risk, days_until_runout, safety_buffer) and follows the fixed priority
table of `_generate_action_suggestion`, first matching rule winning; in
particular days_until_runout = 2 with safety_buffer = 3 and no waste risk
yields "Reorder now - critical stock level". -/
theorem action_suggestion_table :
    (∀ (d : Option ℤ) (w : Bool) (b : ℤ) (s a t u : ℚ),
        generateActionSuggestion d w s a b = generateActionSuggestion d w t u b) ∧
    (∀ (d : Option ℤ) (b : ℤ) (s a : ℚ),
        generateActionSuggestion d true s a b =
          "Run a special - high waste risk detected before expiry") ∧
    (∀ (b : ℤ) (s a : ℚ),
        generateActionSuggestion none false s a b =
          "Stock appears sufficient - monitor regularly") ∧
    (∀ (k b : ℤ) (s a : ℚ), k ≤ b →
        generateActionSuggestion (some k) false s a b =
          "Reorder now - critical stock level") ∧
    (∀ (k b : ℤ) (s a : ℚ), b < k → k ≤ b + 3 →
        generateActionSuggestion (some k) false s a b =
          "Reorder soon - approaching reorder point") ∧
    (∀ (k b : ℤ) (s a : ℚ), b + 3 < k → 30 ≤ k →
        generateActionSuggestion (some k) false s a b =
          "Increase safety buffer - excess inventory detected") ∧
    (∀ (k b : ℤ) (s a : ℚ), b + 3 < k → k < 30 →
        generateActionSuggestion (some k) false s a b =
          "Monitor closely - stock levels normal") ∧
    generateActionSuggestion (some 2) false 0 0 3 =
      "Reorder now - critical stock level" := by
  refine ⟨?_, ?_, ?_, ?_, ?_, ?_, ?_, ?_⟩
  · intro d w b s a t u; rfl
  · intro d b s a; simp [generateActionSuggestion]
  · intro b s a; rfl
  · intro k b s a h; simp [generateActionSuggestion, h]
  · intro k b s a h1 h2
    have h3 : ¬k ≤ b := by omega
    simp [generateActionSuggestion, h3, h2]
  · intro k b s a h1 h2
    have h3 : ¬k ≤ b := by omega
    have h4 : ¬k ≤ b + 3 := by omega
    simp [generateActionSuggestion, h3, h4, h2]
  · intro k b s a h1 h2
    have h3 : ¬k ≤ b := by omega
    have h4 : ¬k ≤ b + 3 := by omega
    have h5 : ¬30 ≤ k := by omega
    simp [generateActionSuggestion, h3, h4, h5]
  · norm_num [generateActionSuggestion]

/-- Witness for C2: the "reorder soon" rule at days_until_runout = 5,
safety_buffer = 3. -/
theorem action_suggestion_table_witness :
    generateActionSuggestion (some 5) false 1 2 3 =
      "Reorder soon - approaching reorder point" :=
  action_suggestion_table.2.2.2.2.1 5 3 1 2 (by norm_num) (by norm_num)

/-- C3 counterexample: with current stock 10, forecast [20] and a perish
date one day in the future (strictly future), the sum over the forecast days
strictly before the perish date is empty (0 < 10), so the claim asserts
waste risk; the code sums `predictions[:1]` (20 ≥ 10 fails the `<`) and
reports no waste risk. -/
theorem wasteRisk_day_indexing_cex :
    wasteRisk 10 [20] (some 1) = false ∧ wasteRiskSpec 10 [20] (some 1) = true := by
  constructor
  · norm_num [wasteRisk]
  · norm_num [wasteRiskSpec]

/-- C3 amended: waste risk is true iff a perish date is given, lies strictly
in the future, and the sum of forecast consumption over the first
`days_to_perish` forecast days (the days up to *and including* the perish
date) is strictly less than the current stock; it is false whenever the
perish date is absent or not strictly in the future. -/
theorem wasteRisk_iff (current_stock : ℚ) (preds : List ℚ) (days_to_perish : Option ℤ) :
    (wasteRisk current_stock preds days_to_perish = true ↔
      ∃ d, days_to_perish = some d ∧ 0 < d ∧ (preds.take d.toNat).sum < current_stock) ∧
    wasteRisk current_stock preds none = false ∧
    (∀ d : ℤ, d ≤ 0 → wasteRisk current_stock preds (some d) = false) := by
  refine ⟨?_, rfl, ?_⟩
  · cases days_to_perish with
    | none =>
      constructor
      · intro h; exact absurd h (by simp [wasteRisk])
      · rintro ⟨d, hd, -, -⟩; exact Option.noConfusion hd
    | some d =>
      simp only [wasteRisk]
      by_cases hd : 0 < d
      · rw [if_pos hd]
        constructor
        · intro h
          exact ⟨d, rfl, hd, of_decide_eq_true h⟩
        · rintro ⟨e, he, -, hsum⟩
          simp only [Option.some_inj] at he
          subst he
          exact decide_eq_true hsum
      · rw [if_neg hd]
        constructor
        · intro h; exact absurd h (by simp)
        · rintro ⟨e, he, h0, -⟩
          simp only [Option.some_inj] at he
          subst he
          exact absurd h0 hd
  · intro d hd
    simp only [wasteRisk]
    rw [if_neg (by omega)]

/-- Witness for C3 (amended): stock 50, forecast [20, 20, 20], perish date
2 days out: the first two forecast days sum to 40 < 50, so waste risk. -/
theorem wasteRisk_iff_witness :
    wasteRisk 50 [20, 20, 20] (some 2) = true :=
  (wasteRisk_iff 50 [20, 20, 20] (some 2)).1.mpr
    ⟨2, rfl, by norm_num, by
      show (List.take 2 [(20 : ℚ), 20, 20]).sum < 50
      norm_num⟩

/-- C4 counterexample: at forecast day index 2 the code produces
`100 * (1 - 2*0.02) = 96` while a geometric 2% decay would give
`100 * 0.98^2 = 96.04`. -/
theorem ensemble_decay_not_geometric_cex :
    (predictWithEnsemble 100 3).getD 2 0 = 96 ∧
    (predictWithEnsembleGeom 100 3).getD 2 0 = 2401 / 25 ∧
    (96 : ℚ) ≠ 2401 / 25 := by
  refine ⟨?_, ?_, by norm_num⟩
  · norm_num [predictWithEnsemble, List.range_succ]
  · norm_num [predictWithEnsembleGeom, List.range_succ]

/-- C4 amended: after the meta-model produces its point estimate, the
forecast for day i of the horizon equals the estimate decayed *linearly* by
2% of the estimate per day, `estimate * (1 - 0.02 * i)`, clamped to be
≥ 0. -/
theorem ensemble_linear_decay (final_pred : ℚ) (H : ℕ) :
    (predictWithEnsemble final_pred H).length = H ∧
    ∀ i, i < H → (predictWithEnsemble final_pred H).getD i 0 =
      max 0 (final_pred * ((1 : ℚ) - (i : ℚ) * (2 / 100))) :=
  ⟨predictWithEnsemble_length final_pred H,
    fun i hi => predictWithEnsemble_getD final_pred H i hi⟩

/-- Witness for C4 (amended): the day-2 value of a 3-day rollout from
estimate 100. -/
theorem ensemble_linear_decay_witness :
    (predictWithEnsemble 100 3).getD 2 0 =
      max 0 ((100 : ℚ) * ((1 : ℚ) - (2 : ℚ) * (2 / 100))) :=
  (ensemble_linear_decay 100 3).2 2 (by norm_num)

/-- C5: evaluation of the code at the failing input.  With the model loaded
and an empty history for the requested SKU, `predict_inventory_simple`
raises the 404 inside its own `try:` block; the trailing
`except Exception` catches that `HTTPException` and re-raises it as a 500,
so the caller observes status 500 (with the original 404 text, sku_id
included, embedded in the detail) instead of not-found semantics. -/
theorem empty_history_wrapped_500 :
    predictInventorySimple true "SKU-1" [] (fun _ => Except.ok 0) 7 =
      Except.error ⟨500, "Prediction failed: 404: No data found for SKU: SKU-1"⟩ := by
  rfl

/-- C6 counterexample: with the model loaded, history [10, 20, 30] and a
predictor that raises on every per-day call, the endpoint succeeds —
each of the 2 requested days silently falls back to the trailing-7-day
average (10+20+30)/3 = 20 — instead of propagating a prediction failure. -/
theorem predictor_failure_falls_back_cex :
    predictInventorySimple true "SKU-1" [10, 20, 30]
        (fun _ => Except.error "malformed input") 2 =
      Except.ok [20, 20] := by
  norm_num [predictInventorySimple, predictBodySimple, trailing7Avg, List.range_succ]

/-- C6 amended: when the predictor is unavailable at configuration level the
endpoint fails with 503 and no fallback; when the predictor is available and
the history is non-empty, the call always succeeds, each per-day value being
`max(0, prediction)` when the per-day call succeeds and the trailing-7-day
historical average when the per-day call raises (silently recovered, never
propagated). -/
theorem predict_simple_fallback_behavior :
    (∀ (sku_id : String) (qty_used : List ℚ) (predictor : ℕ → Except String ℚ) (H : ℕ),
        predictInventorySimple false sku_id qty_used predictor H =
          Except.error ⟨503, "Model not available"⟩) ∧
    (∀ (sku_id : String) (qty_used : List ℚ) (predictor : ℕ → Except String ℚ) (H : ℕ),
        qty_used ≠ [] →
        predictInventorySimple true sku_id qty_used predictor H =
          Except.ok ((List.range H).map (fun i =>
            match predictor i with
            | Except.ok v => max 0 v
            | Except.error _ => trailing7Avg qty_used))) := by
  constructor
  · intro sku qty predictor H; rfl
  · intro sku qty predictor H hne
    have h1 : qty.isEmpty = false := by
      cases qty with
      | nil => exact absurd rfl hne
      | cons x xs => rfl
    have h2 : 0 < qty.length := List.length_pos.mpr hne
    simp [predictInventorySimple, predictBodySimple, h1, h2]

/-- Witness for C6 (amended): one successful per-day prediction of 4 with
non-empty history. -/
theorem predict_simple_fallback_witness :
    predictInventorySimple true "SKU-2" [6] (fun _ => Except.ok 4) 1 =
      Except.ok [4] := by
  have h := predict_simple_fallback_behavior.2 "SKU-2" [6] (fun _ => Except.ok 4) 1
    (by simp)
  rw [h]
  norm_num [List.range_succ]

/-- C7: for every horizon H in [1, 90] (and any point estimate and any
elementwise inverse transform standing for `expm1`), the forecast rollout of
`predict_inventory` yields exactly H future points, each with predicted ≥ 0,
confidence_low = 0.85 × predicted and confidence_high = 1.15 × predicted,
hence confidence_low ≤ predicted ≤ confidence_high. -/
theorem forecast_points_bands (final_pred : ℚ) (H : ℕ) (inv_transform : ℚ → ℚ)
    (h1 : 1 ≤ H) (h90 : H ≤ 90) :
    (mkPredictionPoints (clampNonneg
        ((predictWithEnsemble final_pred H).map inv_transform))).length = H ∧
    ∀ pt ∈ mkPredictionPoints (clampNonneg
        ((predictWithEnsemble final_pred H).map inv_transform)),
      0 ≤ pt.1 ∧ pt.2.1 = 85 / 100 * pt.1 ∧ pt.2.2 = 115 / 100 * pt.1 ∧
        pt.2.1 ≤ pt.1 ∧ pt.1 ≤ pt.2.2 := by
  constructor
  · simp [mkPredictionPoints, clampNonneg, predictWithEnsemble_length]
  · intro pt hpt
    simp only [mkPredictionPoints, List.mem_map] at hpt
    obtain ⟨p, hp, rfl⟩ := hpt
    simp only [clampNonneg, List.mem_map] at hp
    obtain ⟨q, hq, rfl⟩ := hp
    have hq0 : (0 : ℚ) ≤ max q 0 := le_max_right q 0
    refine ⟨hq0, mul_comm _ _, mul_comm _ _, ?_, ?_⟩
    · nlinarith
    · nlinarith

/-- Witness for C7: a 7-day rollout from estimate 3 has exactly 7 points. -/
theorem forecast_points_bands_witness :
    (mkPredictionPoints (clampNonneg ((predictWithEnsemble 3 7).map id))).length = 7 :=
  (forecast_points_bands 3 7 id (by norm_num) (by norm_num)).1

/-- C8: a FeatureRow built from a UsageRecord whose optional fields are all
null carries exactly the documented defaults: covers = 250,
seasonality_factor = 1.0, inventory_start = 0, on_order_qty = 0,
avg_daily_usage_7d = 0, avg_daily_usage_28d = 0, shelf_life_days = 30,
unit_cost = 1.0, is_holiday = 0, lead_time_days = 2. -/
theorem feature_defaults :
    buildFeatureRow nullUsageRecord = ⟨250, 1, 0, 0, 0, 0, 30, 1, 0, 2⟩ :=
  rfl

/-- C9: for a fixed forecast of non-negative daily predictions, raising the
current stock never decreases the computed days-until-runout: either the
larger stock has no runout at all, or both runouts exist and the larger
stock's is at least as late. -/
theorem runout_monotone_in_stock (preds : List ℚ) (s1 s2 : ℚ)
    (hnn : ∀ p ∈ preds, 0 ≤ p) (h12 : s1 ≤ s2) :
    runoutDay s2 preds = none ∨
      ∃ k1 k2, runoutDay s1 preds = some k1 ∧ runoutDay s2 preds = some k2 ∧ k1 ≤ k2 := by
  rcases e2 : runoutDay s2 preds with _ | k2
  · exact Or.inl rfl
  · right
    obtain ⟨hk2a, hk2b, hk2c, hk2d⟩ := (runoutDay_eq_some_iff s2 preds k2).mp e2
    have hne : runoutDay s1 preds ≠ none := by
      intro hnone
      have := (runoutDay_eq_none_iff s1 preds).mp hnone k2 hk2a hk2b
      linarith
    obtain ⟨k1, e1⟩ := Option.ne_none_iff_exists'.mp hne
    obtain ⟨hk1a, hk1b, hk1c, hk1d⟩ := (runoutDay_eq_some_iff s1 preds k1).mp e1
    refine ⟨k1, k2, e1, rfl, ?_⟩
    by_contra hlt
    have := hk1d k2 hk2a (by omega)
    linarith

/-- Witness for C9: stocks 40 ≤ 50 against the non-negative forecast
[20, 20, 20]. -/
theorem runout_monotone_in_stock_witness :
    runoutDay 50 [20, 20, 20] = none ∨
      ∃ k1 k2, runoutDay 40 [20, 20, 20] = some k1 ∧
        runoutDay 50 [20, 20, 20] = some k2 ∧ k1 ≤ k2 :=
  runout_monotone_in_stock [20, 20, 20] 40 50 (by norm_num) (by norm_num)

/-- C10: building the optimization details never divides by zero:
`stock_coverage_days` is always defined, equals the truncation of
current_stock / mean prediction when the mean is strictly positive, and
equals 999 otherwise — in particular for an all-zero forecast of any
length. -/
theorem stock_coverage_days_safe :
    (∀ (current_stock : ℚ) (preds : List ℚ),
        (stockCoverageDays current_stock preds).isSome = true ∧
        (0 < mean preds →
          stockCoverageDays current_stock preds =
            some (ratTrunc (current_stock / mean preds))) ∧
        (¬0 < mean preds → stockCoverageDays current_stock preds = some 999)) ∧
    (∀ (current_stock : ℚ) (n : ℕ),
        stockCoverageDays current_stock (List.replicate n 0) = some 999) := by
  constructor
  · intro stock preds
    by_cases h : 0 < mean preds
    · have hne : mean preds ≠ 0 := ne_of_gt h
      refine ⟨?_, fun _ => ?_, fun hc => absurd h hc⟩
      · simp [stockCoverageDays, h, safeDiv, hne]
      · simp [stockCoverageDays, h, safeDiv, hne]
    · refine ⟨?_, fun hc => absurd hc h, fun _ => ?_⟩
      · simp [stockCoverageDays, h]
      · simp [stockCoverageDays, h]
  · intro stock n
    have hm : mean (List.replicate n 0) = 0 := by
      simp [mean, List.sum_replicate]
    simp [stockCoverageDays, hm]

/-- Witness for C10: stock 10 against the forecast [2, 2] of positive
mean 2. -/
theorem stock_coverage_days_safe_witness :
    stockCoverageDays 10 [2, 2] = some (ratTrunc (10 / mean [2, 2])) :=
  (stock_coverage_days_safe.1 10 [2, 2]).2.1 (by norm_num [mean])

end Foodix
